import Mathlib

/-!
Verification development for the restcraft/restipy WSGI framework sources.

The Python sources are shallowly embedded: pure route-compilation and
matching code becomes Lean functions over `List Char` / `String`; Python
dicts (which preserve insertion order) become association lists; raised
exceptions become `Except` / `Option` results; the WSGI error sink becomes
an explicit list of written strings.
-/

deriving instance DecidableEq for Except

namespace RestCraft

/-! ### Association-list helpers (model of Python `dict` operations) -/

/-- Lookup in an insertion-ordered association list (Python `d.get(k)`). -/
def assocGet {α : Type} : List (String × α) → String → Option α
  | [], _ => Option.none
  | (k, v) :: rest, key => if k = key then some v else assocGet rest key

/-- Write `d[k] = v`: overwrite in place if the key exists (Python dicts
keep the original position of an overwritten key; a dict never holds a
key twice, so replacing the first occurrence is the dict semantics), else
append. -/
def assocSet {α : Type} : List (String × α) → String → α →
    List (String × α)
  | [], key, v => [(key, v)]
  | (k, w) :: rest, key, v =>
      if k = key then (key, v) :: rest else (k, w) :: assocSet rest key v

/-- Python `str.upper` (ASCII model; `String.toUpper`'s byte-position loop
does not reduce in the kernel). -/
def strUpper (s : String) : String := String.mk (s.data.map Char.toUpper)

/-- Python `str.lower` (ASCII model). -/
def strLower (s : String) : String := String.mk (s.data.map Char.toLower)

/-! ### Parameter values and types (`restcraft/core/routing/types.py`)

Each `ParamType` in the source carries a regex fragment that is a single
capturing group over slash-free characters, plus a `convert` classmethod.
The fragment is embedded by its matching semantics on one path segment:
`full seg` holds iff the source pattern fullmatches `seg` (inside the
compiled route regex, a capture that stops short of the next `/` leaves
characters no later fragment can consume, so only full-segment captures
can ever succeed). -/

/-- Result of a `ParamType.convert` call. `int()` on a digit string is a
natural number; `float()` on `digits.digits` is the exact decimal value;
`uuid.UUID` normalizes to the 32 hex digits (lowercased); `convError`
models the `ValueError` that `uuid.UUID` raises on a 36-char hyphen/hex
string that does not contain exactly 32 hex digits. -/
inductive Value where
  | none
  | str (s : String)
  | int (n : Nat)
  | float (q : ℚ)
  | uuid (hex : String)
  | convError
deriving DecidableEq, Repr

/-- A path-parameter type: segment-level semantics of the capturing regex
fragment plus the conversion function. -/
structure ParamType where
  full : List Char → Bool
  convert : String → Value

def digitsToNat (s : String) : Nat :=
  s.data.foldl (fun n c => n * 10 + (c.toNat - '0'.toNat)) 0

/-- StringType: pattern `([^/]+)`, identity conversion. -/
def StringType : ParamType where
  full := fun s => !s.isEmpty && s.all (fun c => c ≠ '/')
  convert := Value.str

/-- IntType: pattern `(\d+)`, `int` conversion. -/
def IntType : ParamType where
  full := fun s => !s.isEmpty && s.all Char.isDigit
  convert := fun s => Value.int (digitsToNat s)

/-- FloatType: pattern `(\d+\.\d+)`, `float` conversion (exact decimal). -/
def FloatType : ParamType where
  full := fun s =>
    match s.dropWhile Char.isDigit with
    | c :: bs =>
        if c = '.' then
          !(s.takeWhile Char.isDigit).isEmpty && !bs.isEmpty &&
            bs.all Char.isDigit
        else false
    | _ => false
  convert := fun s =>
    let a := s.data.takeWhile Char.isDigit
    let b := (s.data.dropWhile Char.isDigit).drop 1
    Value.float ((digitsToNat (String.mk a) : ℚ) +
      (digitsToNat (String.mk b) : ℚ) / ((10 : ℚ) ^ b.length))

def isSlugChar (c : Char) : Bool :=
  ('a' ≤ c && c ≤ 'z') || c.isDigit || c = '-'

/-- SlugType: pattern `([a-z0-9-]+)`, identity conversion. -/
def SlugType : ParamType where
  full := fun s => !s.isEmpty && s.all isSlugChar
  convert := Value.str

def isHexChar (c : Char) : Bool :=
  c.isDigit || ('a' ≤ c && c ≤ 'f') || ('A' ≤ c && c ≤ 'F')

/-- UUIDType: pattern `([0-9a-fA-F-]{36})`; `uuid.UUID` strips hyphens and
requires exactly 32 hex digits. -/
def UUIDType : ParamType where
  full := fun s => s.length = 36 && s.all (fun c => isHexChar c || c = '-')
  convert := fun s =>
    let h := s.data.filter (fun c => c ≠ '-')
    if h.length = 32 && h.all isHexChar then
      Value.uuid (String.mk (h.map Char.toLower))
    else
      Value.convError

/-- The module-level `_type_map` of `restcraft/core/routing/router.py`. -/
def typeMap : List (String × ParamType) :=
  [("default", StringType), ("int", IntType), ("float", FloatType),
   ("str", StringType), ("slug", SlugType), ("uuid", UUIDType)]

/-- `self.param_types.get(param_type_key or 'default', self.param_types['default'])`. -/
def lookupType (key : String) : ParamType :=
  (assocGet typeMap (if key = "" then "default" else key)).getD StringType

/-! ### Route patterns and compilation (`restcraft/core/routing/route.py`)

A route pattern string is `strip('/')`-ed and split on `/`; each resulting
segment is either static text or a single `<...>` parameter spec.
`_parse_segment` extracts `(optional, name, type)` via the regex
`<(\??)([^>:]+)(?::([^>]+))?>`; the parsed form is embedded directly as
`Segment`.  A static segment contributes the regex fragment `/text`; a
required parameter contributes `/` + the type's capturing pattern; an
optional parameter contributes `(?:/` + pattern + `?)?`.  The fragments are
concatenated and anchored as `^...../?$` (or `^/$` when the whole pattern
strips to slashes only). -/

/-- Parsed form of one `/`-delimited portion of a route pattern.
`tyKey = ""` models a `<name>` spec with no `:type` suffix. -/
inductive Segment where
  | static (text : String)
  | param (name : String) (tyKey : String) (optional : Bool)
deriving DecidableEq, Repr

/-- Compiled regex fragment for one segment, by matching semantics:
`staticSeg t` is the fragment `/t`; `reqParam ty` is `/(pat)`;
`optParam ty` is `(?:/(pat)?)?`. -/
inductive Piece where
  | staticSeg (text : String)
  | reqParam (ty : ParamType)
  | optParam (ty : ParamType)

/-- Parameter metadata recorded by `_parse_segment`, in order of appearance:
(name, resolved type, optional flag). -/
abbrev ParamMeta := String × ParamType × Bool

/-- Fragment and metadata of one segment (`Route._parse_segment`). -/
def compileSegment : Segment → Piece × List ParamMeta
  | .static t => (.staticSeg t, [])
  | .param name tyKey opt =>
      let ty := lookupType tyKey
      (if opt then .optParam ty else .reqParam ty, [(name, ty, opt)])

/-- The source's `^/$` special case: `full_regex.strip('/')` is empty iff
every fragment is a bare `/`, i.e. every segment is empty static text. -/
def rootOnly (segs : List Segment) : Bool :=
  segs.all (fun s =>
    match s with
    | .static t => t = ""
    | _ => false)

def routePieces (segs : List Segment) : List Piece :=
  segs.map (fun s => (compileSegment s).1)

def routeMetas (segs : List Segment) : List ParamMeta :=
  (segs.map (fun s => (compileSegment s).2)).flatten

/-- Strip `pre` from the front of `input` (regex literal text). -/
def dropPre : List Char → List Char → Option (List Char)
  | [], input => some input
  | _ :: _, [] => Option.none
  | c :: cs, d :: ds => if c = d then dropPre cs ds else Option.none

/-- Split off the maximal slash-free run at the head of the input.  A
capturing fragment can only succeed by consuming this whole run: its
character class excludes `/`, and everything that follows it in the
compiled regex starts with `/` (or is the `/?$` anchor). -/
def nonSlashSplit : List Char → List Char × List Char
  | [] => ([], [])
  | c :: cs =>
      if c = '/' then ([], c :: cs)
      else
        let (a, b) := nonSlashSplit cs
        (c :: a, b)

/-- Ordered capture-group values of a regex match (`match.groups()`);
`Option.none` is a non-participating group. -/
abbrev Caps := List (Option String)

/-- Backtracking matcher for the compiled route regex `^fragments/?$`
against a URL, mirroring Python `re.match` (greedy, first success wins;
an optional group is tried before it is skipped).  The empty piece list
is the trailing `/?$` anchor: `$` matches at the end of the input or
just before a newline that ends it, so after the optional `/` the
remaining input must be empty or a single final newline. -/
def matchPieces : List Piece → List Char → Caps → Option Caps
  | [], rest, caps =>
      if rest = [] ∨ rest = ['\n'] ∨ rest = ['/'] ∨ rest = ['/', '\n'] then
        some caps
      else Option.none
  | .staticSeg t :: ps, input, caps =>
      match dropPre ('/' :: t.data) input with
      | some rest => matchPieces ps rest caps
      | Option.none => Option.none
  | .reqParam ty :: ps, input, caps =>
      match input with
      | [] => Option.none
      | c :: rest =>
          if c = '/' then
            if ty.full (nonSlashSplit rest).1 then
              matchPieces ps (nonSlashSplit rest).2
                (caps ++ [some (String.mk (nonSlashSplit rest).1)])
            else Option.none
          else Option.none
  | .optParam ty :: ps, input, caps =>
      (match input with
       | [] => Option.none
       | c :: rest =>
           if c = '/' then
             (if ty.full (nonSlashSplit rest).1 then
                matchPieces ps (nonSlashSplit rest).2
                  (caps ++ [some (String.mk (nonSlashSplit rest).1)])
              else Option.none) <|>
               matchPieces ps rest (caps ++ [Option.none])
           else Option.none) <|>
        matchPieces ps input (caps ++ [Option.none])

/-- Parameter dictionary extracted from a match. -/
abbrev Params := List (String × Value)

/-- `params[name] = type_.convert(value) if value else None`, zipping the
recorded metadata against the capture groups positionally. -/
def buildParams (metas : List ParamMeta) (caps : Caps) : Params :=
  (List.zip metas caps).foldl
    (fun d mv =>
      assocSet d mv.1.1
        (match mv.2 with
         | some s => if s = "" then Value.none else mv.1.2.1.convert s
         | Option.none => Value.none))
    []

/-- `Route.match`: run the compiled regex against the URL; on success
return the converted parameter dictionary. -/
def routeMatch (segs : List Segment) (url : String) : Option Params :=
  if rootOnly segs then
    if url = "/" ∨ url = "/\n" then some [] else Option.none
  else
    match matchPieces (routePieces segs) url.data [] with
    | some caps => some (buildParams (routeMetas segs) caps)
    | Option.none => Option.none

/-! Sanity examples for the compiled matcher (claims C5/C6 are stated as
theorems further below). -/

example :
    routeMatch [.static "items", .param "id" "int" false] "/items/7" =
      some [("id", Value.int 7)] := by decide

example :
    routeMatch [.static "search", .param "q" "" true] "/search" =
      some [("q", Value.none)] := by decide

example :
    routeMatch [.static "search", .param "q" "" true] "/search/term" =
      some [("q", Value.str "term")] := by decide

/-! ### Pattern validation (`Route._validate_pattern`) -/

/-- Python `\w` (ASCII model). -/
def isWordChar (c : Char) : Bool := c.isAlphanum || c = '_'

/-- Static text must match `^[\w-]*$`. -/
def validStatic (t : String) : Bool :=
  t.data.all (fun c => isWordChar c || c = '-')

/-- Parameter names must match `^[\w?]*$` (optionality marker already
separated out in the parsed form). -/
def validName (n : String) : Bool :=
  n.data.all (fun c => isWordChar c || c = '?')

/-- `Route._validate_pattern` on the parsed segments: static charset check,
declared-type existence, name charset.  (One parameter per segment is
enforced by the `Segment` shape itself.) -/
def validateSegs (segs : List Segment) : Except String Unit :=
  if segs.all
      (fun s =>
        match s with
        | .static t => validStatic t
        | .param n tyKey _ =>
            (tyKey = "" || (assocGet typeMap tyKey).isSome) && validName n)
  then .ok () else .error "invalid route pattern"

/-! ### Linear-scan router (`restcraft/core/routing/router.py`)

`Router._routes` maps an upper-cased HTTP method to the list of `Route`
objects in registration order; `add_route` appends one `Route` to every
bucket of the view's methods; `resolve` walks the method's bucket in order
and returns the first route whose `match` succeeds.  Views are identified
by a numeric id standing in for Python object identity. -/

structure LinView where
  id : Nat
  route : List Segment
  methods : List String
  name : Option String
deriving DecidableEq, Repr

structure LinRoute where
  viewId : Nat
  segs : List Segment
deriving DecidableEq, Repr

structure LinRouter where
  routes : List (String × List LinRoute)
  urlRegistry : List (String × Nat)
deriving DecidableEq, Repr

def emptyLinRouter : LinRouter := ⟨[], []⟩

/-- `self._routes.setdefault(method.upper(), []).append(route)`. -/
def bucketAppend (rs : List (String × List LinRoute)) (m : String)
    (r : LinRoute) : List (String × List LinRoute) :=
  assocSet rs m ((assocGet rs m).getD [] ++ [r])

/-- `Router.add_route`: build the `Route` (running pattern validation),
reject duplicate view *names*, then append to each method bucket.  Note
that no duplicate-pattern check of any kind is performed. -/
def linAddRoute (rt : LinRouter) (v : LinView) : Except String LinRouter :=
  match validateSegs v.route with
  | .error e => .error e
  | .ok () =>
      match v.name with
      | some n =>
          if (assocGet rt.urlRegistry n).isSome then
            .error "A view with this name already exists."
          else
            .ok { routes :=
                    v.methods.foldl
                      (fun rs m =>
                        bucketAppend rs (strUpper m) ⟨v.id, v.route⟩)
                      rt.routes,
                  urlRegistry := assocSet rt.urlRegistry n v.id }
      | Option.none =>
          .ok { rt with
                routes :=
                  v.methods.foldl
                    (fun rs m =>
                      bucketAppend rs (strUpper m) ⟨v.id, v.route⟩)
                    rt.routes }

/-- First route in the bucket whose regex matches the path. -/
def findFirstRoute : List LinRoute → String → Option (LinRoute × Params)
  | [], _ => Option.none
  | r :: rest, path =>
      match routeMatch r.segs path with
      | some ps => some (r, ps)
      | Option.none => findFirstRoute rest path

/-- `Router.resolve`: `Option.none` models the `RouteNotFound` raise, both
for a missing method bucket and for an exhausted bucket.  (The source's
`@cache` memoization is irrelevant to a pure function.) -/
def linResolve (rt : LinRouter) (method path : String) :
    Option (LinRoute × Params) :=
  findFirstRoute ((assocGet rt.routes (strUpper method)).getD []) path

/-! ### Trie router (`restcraft/http/router.py`)

`Node` holds literal children (dict key = segment text), dynamic pattern
children under the reserved child key `:restcraft:dynamic:` (dict key = the
compiled per-segment regex; keyed here by the pattern source, matching
`re.compile`'s caching of identical pattern strings), per-method handlers
and the owning view.  Python regex objects are out of scope for the claims
that touch this router, so a dynamic pattern is carried as its source
string plus an opaque prefix-match function (`re.Pattern.match` +
`group(0)` semantics) supplied by a `compileRe` oracle argument. -/

structure DynPat where
  src : String
  matchPre : String → Option String

inductive TNode where
  | mk (children : List (String × TNode)) (patterns : List (DynPat × TNode))
      (handlers : List (String × Nat)) (view : Option Nat) (param : String)

def TNode.children : TNode → List (String × TNode)
  | .mk c _ _ _ _ => c

def TNode.patterns : TNode → List (DynPat × TNode)
  | .mk _ p _ _ _ => p

def TNode.handlers : TNode → List (String × Nat)
  | .mk _ _ h _ _ => h

def TNode.view : TNode → Option Nat
  | .mk _ _ _ v _ => v

def TNode.param : TNode → String
  | .mk _ _ _ _ p => p

def emptyTNode : TNode := .mk [] [] [] Option.none ""

def dynamicKey : String := ":restcraft:dynamic:"

/-- `is_dynamic(segment)`: starts with `<` and ends with `>`. -/
def isDynamicSeg (s : String) : Bool :=
  (s.data.headD ' ' = '<') && (s.data.getLast? = some '>')

/-- `segment[1:-1].split(":", 1)` with the `.*` default pattern. -/
def parseDynSeg (s : String) : String × String :=
  let inner := String.mk ((s.data.drop 1).dropLast)
  let before := inner.data.takeWhile (fun c => c ≠ ':')
  let rest := inner.data.dropWhile (fun c => c ≠ ':')
  match rest with
  | [] => (String.mk before, ".*")
  | _ :: after => (String.mk before, String.mk after)

/-- Python `[part for part in path.split("/") if part]` needs `str.split`;
`splitChar` models `str.split` on a single separator character. -/
def splitChar (sep : Char) : List Char → List (List Char)
  | [] => [[]]
  | c :: cs =>
      let r := splitChar sep cs
      if c = sep then [] :: r else (c :: r.headD []) :: r.tail

/-- `Router._split_path`. -/
def splitPath (p : String) : List String :=
  ((splitChar '/' p.data).map String.mk).filter (fun s => s ≠ "")

/-- Lookup among dynamic-pattern children by compiled-pattern identity
(identical pattern strings compile to the same cached `re.Pattern`). -/
def patGet : List (DynPat × TNode) → String → Option TNode
  | [], _ => Option.none
  | (p, n) :: rest, src => if p.src = src then some n else patGet rest src

def patSet : List (DynPat × TNode) → DynPat → TNode →
    List (DynPat × TNode)
  | [], dp, n => [(dp, n)]
  | (p, m) :: rest, dp, n =>
      if p.src = dp.src then (p, n) :: rest else (p, m) :: patSet rest dp n

def TNode.setChild (t : TNode) (key : String) (c : TNode) : TNode :=
  match t with
  | .mk cs ps hs v p => .mk (assocSet cs key c) ps hs v p

def TNode.setPat (t : TNode) (dp : DynPat) (c : TNode) : TNode :=
  match t with
  | .mk cs ps hs v p => .mk cs (patSet ps dp c) hs v p

/-- Install the view and its handlers at a terminal node
(`node.view = view` + `_register_view_handlers`).  The trie view supplies
`(methods, handler)` pairs as yielded per handler by `extract_metadata`. -/
def TNode.install (t : TNode) (vid : Nat)
    (hmeta : List (List String × Nat)) : TNode :=
  match t with
  | .mk cs ps hs _ p =>
      .mk cs ps
        (hmeta.foldl
          (fun acc mh => mh.1.foldl (fun a verb => assocSet a verb mh.2) acc)
          hs)
        (some vid) p

/-- Descend/create the node chain for the segments and install the view at
the terminal, failing with the conflict `RuntimeError` when the terminal
already owns a view (`Router.add_route`). -/
def insertGo (compileRe : String → String → Option String) :
    TNode → List String → Nat → List (List String × Nat) →
      Except String TNode
  | node, [], vid, hmeta =>
      if node.view.isSome then .error "Conflicting routes"
      else .ok (node.install vid hmeta)
  | node, seg :: rest, vid, hmeta =>
      if isDynamicSeg seg then
        let dyn := (assocGet node.children dynamicKey).getD emptyTNode
        let (pname, pat) := parseDynSeg seg
        let pnode :=
          (patGet dyn.patterns pat).getD
            (TNode.mk [] [] [] Option.none pname)
        match insertGo compileRe pnode rest vid hmeta with
        | .error e => .error e
        | .ok pnode2 =>
            .ok (node.setChild dynamicKey
              (dyn.setPat ⟨pat, compileRe pat⟩ pnode2))
      else
        let child := (assocGet node.children seg).getD emptyTNode
        match insertGo compileRe child rest vid hmeta with
        | .error e => .error e
        | .ok child2 => .ok (node.setChild seg child2)

/-- `Router.add_route` for a router with prefix `pre`:
`segments = _split_path(prefix + path)`. -/
def trieAddRoute (compileRe : String → String → Option String) (pre : String)
    (root : TNode) (path : String) (vid : Nat)
    (hmeta : List (List String × Nat)) : Except String TNode :=
  insertGo compileRe root (splitPath (pre ++ path)) vid hmeta

/-- First dynamic pattern at this depth whose regex prefix-matches the
segment, with the matched text (`match.group(0)`). -/
def firstPat : List (DynPat × TNode) → String → Option (TNode × String)
  | [], _ => Option.none
  | (dp, n) :: rest, seg =>
      match dp.matchPre seg with
      | some m => some (n, m)
      | Option.none => firstPat rest seg

/-- One iteration of the `_find_node` loop.  When the segment matches
neither a literal child nor any dynamic pattern, the loop body falls
through and leaves `node` unchanged — the segment is silently skipped. -/
def findStep (acc : TNode × List (String × String)) (seg : String) :
    TNode × List (String × String) :=
  match assocGet acc.1.children seg with
  | some c => (c, acc.2)
  | Option.none =>
      match assocGet acc.1.children dynamicKey with
      | some dyn =>
          match firstPat dyn.patterns seg with
          | some (pnode, m) => (pnode, assocSet acc.2 pnode.param m)
          | Option.none => acc
      | Option.none => acc

/-- `Router._find_node`. -/
def findNode (root : TNode) (path : String) :
    Option (TNode × List (String × String)) :=
  let r := (splitPath path).foldl findStep (root, [])
  if r.1.view.isSome then some r else Option.none

inductive DispatchErr where
  | notFound
  | methodNotAllowed
deriving DecidableEq, Repr

/-- Handler lookup over the candidate methods. -/
def firstHandler : List String → List (String × Nat) → Option Nat
  | [], _ => Option.none
  | m :: ms, hs =>
      match assocGet hs m with
      | some h => some h
      | Option.none => firstHandler ms hs

/-- `Router.dispatch`: `NotFoundException` when descent yields no view;
otherwise try the request method — plus `GET` when the method is `HEAD`
(the source iterates a two-element set; nothing here depends on its
order) — and fail with `MethodNotAllowedException` when none is bound. -/
def trieDispatch (root : TNode) (method path : String) :
    Except DispatchErr (Nat × List (String × String)) :=
  match findNode root path with
  | Option.none => .error .notFound
  | some (node, params) =>
      let ms := if method = "HEAD" then ["HEAD", "GET"] else [method]
      match firstHandler ms node.handlers with
      | some h => .ok (h, params)
      | Option.none => .error .methodNotAllowed

/-! ### Responses (`restcraft/core/response.py`)

Bodies are modeled one `str()` application early: a plain `Response` body
is `Option String` behind `RBody.text` / `RBody.none`, and a
`JSONResponse` body is the structured error dictionary the dispatch
pipeline builds (`RBody.json`).  Byte strings are modeled as `String`
with `length` as the byte count (ASCII payloads). -/

/-- The `details` payload attached to error bodies in debug mode. -/
structure Details where
  exception : String
  stacktrace : List String
deriving DecidableEq, Repr

/-- Structured JSON error body `{'code': ..., 'message': ..., **payload}`
where the only payload the pipeline constructs is `{'details': ...}`. -/
structure ErrBody where
  code : String
  message : String
  details : Option Details
deriving DecidableEq, Repr

def jsonStr (s : String) : String :=
  "\"" ++ String.join (s.data.map (fun c =>
    if c = '\\' then "\\\\" else if c = '"' then "\\\"" else
      String.mk [c])) ++ "\""

/-- `json.dumps` of the structured error body (default separators). -/
def jsonDumpErr (b : ErrBody) : String :=
  "\x7b" ++ jsonStr "code" ++ ": " ++ jsonStr b.code ++ ", " ++
    jsonStr "message" ++ ": " ++ jsonStr b.message ++
    (match b.details with
     | Option.none => ""
     | some d =>
         ", " ++ jsonStr "details" ++ ": \x7b" ++
           jsonStr "exception" ++ ": " ++ jsonStr d.exception ++ ", " ++
           jsonStr "stacktrace" ++ ": [" ++
           String.intercalate ", " (d.stacktrace.map jsonStr) ++ "]\x7d") ++
    "\x7d"

inductive RBody where
  | none
  | text (s : String)
  | json (b : ErrBody)
deriving DecidableEq, Repr

/-- Mutable response state: `_body`, `_status`, `_headers`. -/
structure Resp where
  body : RBody
  status : Nat
  headers : List (String × String)
deriving DecidableEq, Repr

/-- `Response._encode` / `JSONResponse._encode`: `None` or `''` encode to
`b''`, otherwise `str(body)` resp. `json.dumps(body)`. -/
def encodeBody : RBody → String
  | .none => ""
  | .text s => s
  | .json b => jsonDumpErr b

/-- Constructor of `Response`: default headers plus the given headers with
lower-cased keys. -/
def mkResponse (body : RBody) (status : Nat)
    (headers : List (String × String)) : Resp :=
  ⟨body, status,
    headers.foldl (fun acc kv => assocSet acc (strLower kv.1) kv.2)
      [("content-type", "text/plain; charset=utf-8")]⟩

/-- Constructor of `JSONResponse` (JSON default content type). -/
def mkJSONResponse (body : RBody) (status : Nat)
    (headers : List (String × String)) : Resp :=
  ⟨body, status,
    headers.foldl (fun acc kv => assocSet acc (strLower kv.1) kv.2)
      [("content-type", "application/json; charset=utf-8")]⟩

/-- `Response.bad_headers`, keys pre-lowered as the deletion loop does. -/
def badHeaders (status : Nat) : List String :=
  if status = 204 then ["content-type", "content-length"]
  else if status = 304 then
    ["allow", "content-encoding", "content-language", "content-length",
     "content-range", "content-type", "content-md5", "last-modified"]
  else []

/-- `Response.header_list`: drop forbidden entries for the status, then
emit (name, pep3333(value)) pairs; `pep3333` is the identity on the ASCII
strings modeled here. -/
def headerList (r : Resp) : List (String × String) :=
  (badHeaders r.status).foldl
    (fun acc h => acc.filter (fun kv => kv.1 ≠ h)) r.headers

/-- The claim-relevant subset of `_HTTP_STATUS_LINES` (`http.client`
responses plus the module's extensions). -/
def statusLines : List (Nat × String) :=
  [(200, "200 OK"), (201, "201 Created"), (204, "204 No Content"),
   (301, "301 Moved Permanently"), (302, "302 Found"),
   (304, "304 Not Modified"), (400, "400 Bad Request"),
   (404, "404 Not Found"), (405, "405 Method Not Allowed"),
   (413, "413 Request Entity Too Large"), (428, "428 Precondition Required"),
   (429, "429 Too Many Requests"), (500, "500 Internal Server Error")]

def statusLine (status : Nat) : String :=
  ((statusLines.filter (fun p => p.1 = status)).map (fun p => p.2)).headD ""

/-- `Response.get_response`: encode the body, set `content-length` to the
byte length of the encoded data, and emit (data, status line, header
list). -/
def getResponse (r : Resp) : String × String × List (String × String) :=
  let data := encodeBody r.body
  let r2 : Resp :=
    { r with headers :=
        assocSet r.headers "content-length" (toString data.length) }
  (data, statusLine r.status, headerList r2)

/-! ### Dispatch pipeline (`restcraft/core/application.py`)

The request lifecycle of `RestCraft.process_request` is embedded with
explicit outcomes: every hook either returns a value or raises, and a
raise is either a `RestCraftException` (`AppExc`) or any other exception
(`ExcInfo`, carrying `str(e)` and `traceback.format_exc()`).  Writes to
`env['wsgi.errors']` are collected in an explicit sink list.  The
thread-local context bookkeeping (`self.ctx`) has no bearing on the
returned triple and is not modeled. -/

/-- An unrecognized exception: `str(e)` and its formatted traceback. -/
structure ExcInfo where
  text : String
  tb : String
deriving DecidableEq, Repr

/-- A `RestCraftException`: message, payload, status code, exception code,
headers, plus the traceback `traceback.format_exc()` would render for it
at the top-level handler. -/
structure AppExc where
  message : String
  payload : Option Details
  status : Nat
  code : String
  headers : List (String × String)
  tb : String
deriving DecidableEq, Repr

/-- `RestCraftException.to_response()`. -/
def AppExc.toResponse (e : AppExc) : ErrBody :=
  ⟨e.code, e.message, e.payload⟩

/-- `RestCraftException('Route handler must return a Response object.')`
with class defaults (status 500, code INTERNAL_SERVER_ERROR). -/
def handlerContractExc : AppExc :=
  ⟨"Route handler must return a Response object.", Option.none, 500,
    "INTERNAL_SERVER_ERROR", [], ""⟩

/-- `RestCraftException('Route exception must return Response object.')`. -/
def excHandlerContractExc : AppExc :=
  ⟨"Route exception must return Response object.", Option.none, 500,
    "INTERNAL_SERVER_ERROR", [], ""⟩

/-- `RouteNotFound('Route not found.')` (status 404). -/
def routeNotFoundExc : AppExc :=
  ⟨"Route not found.", Option.none, 404, "ROUTE_NOT_FOUND", [], ""⟩

/-- Python `str.splitlines` on the newline-separated tracebacks modeled
here: split on newlines, with no trailing empty line when the string
ends in a newline. -/
def splitLines (s : String) : List String :=
  if s = "" then []
  else
    let parts := (splitChar '\n' s.data).map String.mk
    if parts.getLast? = some "" then parts.dropLast else parts

/-- Outcome of a hook whose return value is checked with
`isinstance(..., Response)`: any non-`Response` return is `nothing`. -/
inductive HookRes where
  | nothing
  | resp (r : Resp)
  | raiseApp (e : AppExc)
  | raiseOther (e : ExcInfo)

/-- Outcome of the view handler call. -/
inductive HandlerRes where
  | resp (r : Resp)
  | nonResp
  | raiseApp (e : AppExc)
  | raiseOther (e : ExcInfo)

/-- Outcome of an `after_handler` hook: its return value is discarded, but
it may mutate the response in place (`done` carries the mutated value) or
raise. -/
inductive AfterRes where
  | done (r : Resp)
  | raiseApp (e : AppExc)
  | raiseOther (e : ExcInfo)

/-- Outcome of a view's `on_exception` hook. -/
inductive OnExcRes where
  | resp (r : Resp)
  | nonResp
  | raiseApp (e : AppExc)
  | raiseOther (e : ExcInfo)

/-- Per-request state visible to hooks: method, path, and the parameter
dict installed after route resolution (`match.groupdict()` values). -/
structure Request where
  method : String
  path : String
  params : List (String × Option String)

/-- A view as `RestCraft.match` consumes it: a compiled route regex
(`view.route.match(path)` + `groupdict()`) and the four hooks. -/
structure PView where
  rmatch : String → Option (List (String × Option String))
  beforeH : Request → HookRes
  handler : Request → HandlerRes
  afterH : Request → Resp → AfterRes
  onExc : Request → AppExc → OnExcRes

structure PMiddleware where
  beforeRoute : Request → HookRes
  beforeHandler : Request → HookRes
  afterHandler : Request → Resp → AfterRes

structure PApp where
  routes : List (String × List PView)
  middlewares : List PMiddleware
  debug : Bool

/-- An escaped exception inside `process_request`. -/
inductive Esc where
  | app (e : AppExc)
  | other (e : ExcInfo)

/-- First view in the bucket whose compiled regex matches. -/
def firstViewMatch : List PView → String →
    Option (PView × List (String × Option String))
  | [], _ => Option.none
  | v :: vs, path =>
      match v.rmatch path with
      | some ps => some (v, ps)
      | Option.none => firstViewMatch vs path

/-- `RestCraft.match`: try the request method's bucket, and also the `GET`
bucket when the method is `HEAD`; `Option.none` models the `RouteNotFound`
raise. -/
def appMatch (app : PApp) (path method : String) :
    Option (PView × List (String × Option String)) :=
  (if method = "HEAD" then [method, "GET"] else [method]).foldr
    (fun m acc =>
      match firstViewMatch ((assocGet app.routes m).getD []) path with
      | some r => some r
      | Option.none => acc)
    Option.none

/-- Run a list of `before_*` middleware hooks in order; a `Response`
return short-circuits. -/
def runBeforeHooks : List (Request → HookRes) → Request →
    Except Esc (Option Resp)
  | [], _ => .ok Option.none
  | h :: hs, req =>
      match h req with
      | .nothing => runBeforeHooks hs req
      | .resp r => .ok (some r)
      | .raiseApp e => .error (.app e)
      | .raiseOther e => .error (.other e)

/-- Run the `after_handler` middleware hooks in registration order,
threading the (possibly mutated) response. -/
def runAfterMws : List PMiddleware → Request → Resp → Except Esc Resp
  | [], _, out => .ok out
  | mw :: mws, req, out =>
      match mw.afterHandler req out with
      | .done out2 => runAfterMws mws req out2
      | .raiseApp e => .error (.app e)
      | .raiseOther e => .error (.other e)

/-- Body of the view `try` block: before hook (short-circuit on a
`Response`), handler (whose return value must be a `Response`, else
`RestCraftException` is raised), after hook.  The boolean is true when the
response was produced by a direct `return` that skips the after
middlewares. -/
def viewAttempt (v : PView) (req : Request) : Except Esc (Resp × Bool) :=
  match v.beforeH req with
  | .resp r => .ok (r, true)
  | .raiseApp e => .error (.app e)
  | .raiseOther e => .error (.other e)
  | .nothing =>
      match v.handler req with
      | .raiseApp e => .error (.app e)
      | .raiseOther e => .error (.other e)
      | .nonResp => .error (.app handlerContractExc)
      | .resp out =>
          match v.afterH req out with
          | .done out2 => .ok (out2, false)
          | .raiseApp e => .error (.app e)
          | .raiseOther e => .error (.other e)

/-- The view block with its localized `except RestCraftException` recovery:
`on_exception` gets the application error and must return a `Response`,
else `RestCraftException('Route exception must return Response object.')`
escapes to the top level. -/
def viewPhase (v : PView) (req : Request) : Except Esc (Resp × Bool) :=
  match viewAttempt v req with
  | .ok x => .ok x
  | .error (.other e) => .error (.other e)
  | .error (.app e) =>
      match v.onExc req e with
      | .resp r => .ok (r, true)
      | .nonResp => .error (.app excHandlerContractExc)
      | .raiseApp e2 => .error (.app e2)
      | .raiseOther e2 => .error (.other e2)

/-- The body of `process_request`'s outer `try`. -/
def processInner (app : PApp) (req : Request) : Except Esc Resp :=
  match runBeforeHooks (app.middlewares.map (fun m => m.beforeRoute)) req with
  | .error e => .error e
  | .ok (some r) => .ok r
  | .ok Option.none =>
      match appMatch app req.path req.method with
      | Option.none => .error (.app routeNotFoundExc)
      | some (v, ps) =>
          let req2 : Request := { req with params := ps }
          match runBeforeHooks
              (app.middlewares.map (fun m => m.beforeHandler)) req2 with
          | .error e => .error e
          | .ok (some r) => .ok r
          | .ok Option.none =>
              match viewPhase v req2 with
              | .error e => .error e
              | .ok (r, true) => .ok r
              | .ok (r, false) =>
                  match runAfterMws app.middlewares req2 r with
                  | .error e => .error e
                  | .ok r2 => .ok r2

/-- Client body of the generic 500 handler for an unrecognized exception. -/
def unhandledBody (debug : Bool) (e : ExcInfo) : ErrBody :=
  ⟨"INTERNAL_SERVER_ERROR", "Something went wrong, try again later.",
    if debug then some ⟨e.text, splitLines e.tb⟩ else Option.none⟩

/-- `RestCraft.process_request`: the successful pipeline result is
finalized with `get_response()`; an escaped `RestCraftException` is
rendered through `to_response()` (with a debug `details` payload) using
its own status code and headers; any other exception is written to
`wsgi.errors` unconditionally and rendered as a generic 500.  The second
component is the list of strings written to `wsgi.errors`. -/
def processRequest (app : PApp) (req : Request) :
    (String × String × List (String × String)) × List String :=
  match processInner app req with
  | .ok r => (getResponse r, [])
  | .error (.app e) =>
      let e2 : AppExc :=
        if app.debug then
          { e with payload := some ⟨e.message, splitLines e.tb⟩ }
        else e
      (getResponse (mkJSONResponse (.json e2.toResponse) e2.status
        e2.headers), [])
  | .error (.other e) =>
      (getResponse (mkJSONResponse (.json (unhandledBody app.debug e)) 500
        []), [e.tb])

/-- `RestCraft.wsgi`: run `process_request`, then discard the body bytes
when the request method is `HEAD`. -/
def wsgiOut (app : PApp) (method path : String) :
    (String × String × List (String × String)) × List String :=
  let r := processRequest app ⟨method, path, []⟩
  ((if method = "HEAD" then "" else r.1.1, r.1.2.1, r.1.2.2), r.2)

/-! ### Concrete routers used by the claim theorems -/

/-- Regex-compile oracle for trie routes with no dynamic segments. -/
def noCompileRe : String → String → Option String := fun _ _ => Option.none

/-- Trie with the single static route `/a` (view 5, GET handler 9). -/
def trieSlashA : TNode :=
  match trieAddRoute noCompileRe "" emptyTNode "/a" 5 [(["GET"], 9)] with
  | .ok t => t
  | .error _ => emptyTNode

/-- Trie with the single static route `/a/b` (view 5, GET handler 9). -/
def trieSlashAB : TNode :=
  match trieAddRoute noCompileRe "" emptyTNode "/a/b" 5 [(["GET"], 9)] with
  | .ok t => t
  | .error _ => emptyTNode

/-- Claim C5: matching applies the segment's ParamType conversion to each
captured value — compiling `/items/<id:int>` and matching `/items/7`
yields the integer parameter `{id: 7}`, `convert` on `"42"` yields the
integer 42, and a non-digit segment already fails at the regex matching
stage (`(\d+)` rejects `abc`), so no capture ever reaches `convert`. -/
theorem C5_int_param_typed_conversion :
    routeMatch [.static "items", .param "id" "int" false] "/items/7" =
      some [("id", Value.int 7)] ∧
    IntType.convert "42" = Value.int 42 ∧
    IntType.full "abc".data = false ∧
    matchPieces (routePieces [.static "items", .param "id" "int" false])
      "/items/abc".data [] = Option.none ∧
    routeMatch [.static "items", .param "id" "int" false] "/items/abc" =
      Option.none := by
  decide

/-- Claim C6: the optional-parameter route `/search/<?q>` matches both
`/search` (yielding `{q: None}`) and `/search/term` (yielding
`{q: "term"}`). -/
theorem C6_optional_param_both_paths :
    routeMatch [.static "search", .param "q" "" true] "/search" =
      some [("q", Value.none)] ∧
    routeMatch [.static "search", .param "q" "" true] "/search/term" =
      some [("q", Value.str "term")] := by
  decide

/-- Claim C4, evaluated at the failing input: with only the route `/a`
registered, the trie descent silently skips the unconsumed segment `b`
(and even an unmatched leading segment `x`), so `dispatch` returns the
`/a` handler for `/a/b` and for `/x/a` instead of failing with
`NotFoundException`; a path whose final node carries no view does fail
with `NotFoundException`. -/
theorem C4_trie_skips_unconsumed_segments :
    trieDispatch trieSlashA "GET" "/a/b" = .ok (9, []) ∧
    trieDispatch trieSlashA "GET" "/x/a" = .ok (9, []) ∧
    trieDispatch trieSlashA "GET" "/b" = .error .notFound := by
  decide

/-- Claim C3, counterexample: in the linear-scan router, registering two
nameless views with the identical pattern `/a` raises nothing — the
second registration succeeds and both routes are kept in the bucket
(the earlier one shadowing the later at resolve time). -/
theorem C3_counterexample_linear_duplicate_accepted :
    linAddRoute emptyLinRouter ⟨1, [.static "a"], ["GET"], Option.none⟩ =
      .ok ⟨[("GET", [⟨1, [.static "a"]⟩])], []⟩ ∧
    linAddRoute ⟨[("GET", [⟨1, [.static "a"]⟩])], []⟩
        ⟨2, [.static "a"], ["GET"], Option.none⟩ =
      .ok ⟨[("GET", [⟨1, [.static "a"]⟩, ⟨2, [.static "a"]⟩])], []⟩ := by
  decide

/-- Claim C7, counterexample: (a) the trie splitter drops empty segments,
so `/a//b` dispatches exactly like `/a/b` — inserting a mid-path slash
does not change whether the path matches; (b) the registerable regex
route `/a//<?q>` (empty mid segment) matches `/a/` but not `/a`, so its
trailing slash is not optional; (c) the regex route `/a/<?q>/b` absorbs a
duplicated mid-path slash via its optional group, matching both `/a//b`
and `/a/b`; (d) because Python `$` also matches just before a newline
that ends the string, the static route `/a` matches the newline-ending
path but not that path with a slash appended, so trailing-slash
optionality also fails on newline-ending paths. -/
theorem C7_counterexample_slash_handling :
    trieDispatch trieSlashAB "GET" "/a//b" = .ok (9, []) ∧
    trieDispatch trieSlashAB "GET" "/a/b" = .ok (9, []) ∧
    routeMatch [.static "a", .static "", .param "q" "" true] "/a/" =
      some [("q", Value.none)] ∧
    routeMatch [.static "a", .static "", .param "q" "" true] "/a" =
      Option.none ∧
    validateSegs [.static "a", .static "", .param "q" "" true] = .ok () ∧
    routeMatch [.static "a", .param "q" "" true, .static "b"] "/a//b" =
      some [("q", Value.none)] ∧
    routeMatch [.static "a", .param "q" "" true, .static "b"] "/a/b" =
      some [("q", Value.none)] ∧
    routeMatch [.static "a"] "/a\n" = some [] ∧
    routeMatch [.static "a"] ("/a\n" ++ "/") = Option.none := by
  decide

/-! ### Claim C1: registration order is the precedence rule -/

lemma findFirstRoute_append (pre rest : List LinRoute) (path : String)
    (hpre : ∀ r ∈ pre, routeMatch r.segs path = Option.none) :
    findFirstRoute (pre ++ rest) path = findFirstRoute rest path := by
  induction pre with
  | nil => rfl
  | cons r rs ih =>
      have hr := hpre r (List.mem_cons_self r rs)
      simp only [List.cons_append, findFirstRoute, hr]
      exact ih (fun q hq => hpre q (List.mem_cons_of_mem r hq))

/-- Claim C1: in the linear-scan router, when routes R1 and R2 for the
method both match the path, R1 was registered before R2, and R1 is the
first matching candidate, `resolve` returns R1 with R1's extracted
parameters — candidates are tried in registration order and the first
regex match wins. -/
theorem C1_linear_first_registered_wins (rt : LinRouter)
    (method path : String) (pre mid post : List LinRoute)
    (R1 R2 : LinRoute) (ps : Params)
    (hbucket : (assocGet rt.routes (strUpper method)).getD [] =
      pre ++ R1 :: (mid ++ R2 :: post))
    (hpre : ∀ r ∈ pre, routeMatch r.segs path = Option.none)
    (h1 : routeMatch R1.segs path = some ps)
    (h2 : routeMatch R2.segs path ≠ Option.none) :
    linResolve rt method path = some (R1, ps) := by
  unfold linResolve
  rw [hbucket, findFirstRoute_append pre _ path hpre]
  simp only [findFirstRoute, h1]

/-- Witness for C1: with `/items/<id:int>` registered before the
catch-all `/<p>`, the path `/items/7` matches both but resolves to the
first with its typed parameters. -/
theorem C1_witness :
    (assocGet (LinRouter.mk
        [("GET", [⟨1, [.static "items", .param "id" "int" false]⟩,
                  ⟨2, [.static "items", .param "p" "" false]⟩])] []).routes
      (strUpper "GET")).getD [] =
      [] ++ ⟨1, [.static "items", .param "id" "int" false]⟩ ::
        ([] ++ ⟨2, [.static "items", .param "p" "" false]⟩ :: []) ∧
    routeMatch [Segment.static "items", Segment.param "id" "int" false]
      "/items/7" = some [("id", Value.int 7)] ∧
    routeMatch [Segment.static "items", Segment.param "p" "" false]
      "/items/7" ≠ Option.none ∧
    linResolve (LinRouter.mk
        [("GET", [⟨1, [.static "items", .param "id" "int" false]⟩,
                  ⟨2, [.static "items", .param "p" "" false]⟩])] [])
      "GET" "/items/7" =
      some (⟨1, [.static "items", .param "id" "int" false]⟩,
        [("id", Value.int 7)]) :=
  ⟨by decide, by decide, by decide,
    C1_linear_first_registered_wins _ "GET" "/items/7" [] [] []
      ⟨1, [.static "items", .param "id" "int" false]⟩
      ⟨2, [.static "items", .param "p" "" false]⟩ [("id", Value.int 7)]
      (by decide) (by simp) (by decide) (by decide)⟩

/-! ### Claim C3 (amended): trie conflict detection -/

lemma assocGet_assocSet {α : Type} (l : List (String × α)) (k : String)
    (v : α) : assocGet (assocSet l k v) k = some v := by
  induction l with
  | nil => simp [assocSet, assocGet]
  | cons q qs ih =>
      obtain ⟨qk, qv⟩ := q
      by_cases h : qk = k
      · simp [assocSet, assocGet, h]
      · simp only [assocSet, if_neg h, assocGet]
        exact ih

lemma patGet_patSet (l : List (DynPat × TNode)) (dp : DynPat) (n : TNode) :
    patGet (patSet l dp n) dp.src = some n := by
  induction l with
  | nil => simp [patSet, patGet]
  | cons q qs ih =>
      obtain ⟨qp, qn⟩ := q
      by_cases h : qp.src = dp.src
      · simp [patSet, patGet, h]
      · simp only [patSet, if_neg h, patGet]
        exact ih

lemma TNode.children_setChild (t : TNode) (k : String) (c : TNode) :
    (t.setChild k c).children = assocSet t.children k c := by
  cases t; rfl

lemma TNode.patterns_setPat (t : TNode) (dp : DynPat) (c : TNode) :
    (t.setPat dp c).patterns = patSet t.patterns dp c := by
  cases t; rfl

lemma TNode.view_install (t : TNode) (vid : Nat)
    (hmeta : List (List String × Nat)) :
    (t.install vid hmeta).view = some vid := by
  cases t; rfl

/-- Claim C3 (amended, trie half): in the trie router, registering a
second view over the exact same segment chain — whose descent reaches the
terminal node the first registration populated — raises the conflict
`RuntimeError` at registration time, for any starting trie, any handler
metadata and any regex oracle; the failed registration returns no new
trie, so nothing is overwritten. -/
theorem C3_amended_trie_conflict_raises
    (cre : String → String → Option String) (t t1 : TNode)
    (segs : List String) (v1 v2 : Nat)
    (h1 h2 : List (List String × Nat))
    (hok : insertGo cre t segs v1 h1 = .ok t1) :
    insertGo cre t1 segs v2 h2 = .error "Conflicting routes" := by
  induction segs generalizing t t1 with
  | nil =>
      unfold insertGo at hok ⊢
      by_cases hv : t.view.isSome
      · rw [if_pos hv] at hok
        cases hok
      · rw [if_neg hv] at hok
        cases hok
        rw [if_pos (by rw [TNode.view_install]; rfl)]
  | cons seg rest ih =>
      unfold insertGo at hok ⊢
      by_cases hd : isDynamicSeg seg = true
      · rw [if_pos hd] at hok ⊢
        rcases hpar : parseDynSeg seg with ⟨pname, pat⟩
        dsimp only at hok ⊢
        rw [hpar] at hok
        dsimp only at hok
        cases hrec : insertGo cre
            ((patGet ((assocGet t.children dynamicKey).getD
                emptyTNode).patterns pat).getD
              (TNode.mk [] [] [] Option.none pname)) rest v1 h1 with
        | error e => rw [hrec] at hok; cases hok
        | ok pnode2 =>
            rw [hrec] at hok
            cases hok
            have hp : patGet
                (patSet ((assocGet t.children dynamicKey).getD
                  emptyTNode).patterns ⟨pat, cre pat⟩ pnode2) pat =
                some pnode2 :=
              patGet_patSet _ ⟨pat, cre pat⟩ pnode2
            rw [TNode.children_setChild, assocGet_assocSet,
              Option.getD_some, TNode.patterns_setPat, hp,
              Option.getD_some, ih _ _ hrec]
      · rw [if_neg hd] at hok ⊢
        dsimp only at hok ⊢
        cases hrec : insertGo cre
            ((assocGet t.children seg).getD emptyTNode) rest v1 h1 with
        | error e => rw [hrec] at hok; cases hok
        | ok child2 =>
            rw [hrec] at hok
            cases hok
            rw [TNode.children_setChild, assocGet_assocSet,
              Option.getD_some, ih _ _ hrec]

/-- Witness for C3 (amended): registering `/a` twice in an empty trie —
the first registration succeeds, the second raises the conflict error. -/
theorem C3_amended_witness :
    insertGo noCompileRe emptyTNode ["a"] 1 [] =
      .ok (TNode.mk [("a", TNode.mk [] [] [] (some 1) "")] [] []
        Option.none "") ∧
    insertGo noCompileRe
        (TNode.mk [("a", TNode.mk [] [] [] (some 1) "")] [] []
          Option.none "")
        ["a"] 2 [] = .error "Conflicting routes" :=
  ⟨rfl,
    C3_amended_trie_conflict_raises noCompileRe emptyTNode _ ["a"] 1 2 [] []
      rfl⟩

/-! ### Claim C10: finalized header invariants -/

lemma mem_assocSet_self {α : Type} (l : List (String × α)) (k : String)
    (v : α) : (k, v) ∈ assocSet l k v := by
  induction l with
  | nil => simp [assocSet]
  | cons q qs ih =>
      obtain ⟨qk, qv⟩ := q
      by_cases h : qk = k
      · simp [assocSet, h]
      · simp only [assocSet, if_neg h]
        exact List.mem_cons_of_mem _ ih

lemma mem_assocSet_cases {α : Type} (l : List (String × α)) (k : String)
    (v : α) (kv : String × α) (h : kv ∈ assocSet l k v) :
    kv ∈ l ∨ kv = (k, v) := by
  induction l with
  | nil => simpa [assocSet] using h
  | cons q qs ih =>
      obtain ⟨qk, qv⟩ := q
      by_cases hq : qk = k
      · simp only [assocSet, if_pos hq] at h
        cases h with
        | head => right; rfl
        | tail _ hm => left; exact List.mem_cons_of_mem _ hm
      · simp only [assocSet, if_neg hq] at h
        cases h with
        | head => left; exact List.mem_cons_self _ _
        | tail _ hm =>
            cases ih hm with
            | inl hl => left; exact List.mem_cons_of_mem _ hl
            | inr hr => right; exact hr

lemma mem_foldl_filter (bads : List String) (l : List (String × String))
    (kv : String × String)
    (h : kv ∈ bads.foldl (fun acc b => acc.filter (fun p => p.1 ≠ b)) l) :
    kv ∈ l ∧ ∀ b ∈ bads, kv.1 ≠ b := by
  induction bads generalizing l with
  | nil => exact ⟨h, by simp⟩
  | cons b bs ih =>
      obtain ⟨hmem, hrest⟩ := ih _ h
      obtain ⟨hl, hb⟩ := List.mem_filter.mp hmem
      refine ⟨hl, fun b2 hb2 => ?_⟩
      cases hb2 with
      | head => exact of_decide_eq_true hb
      | tail _ htail => exact hrest b2 htail

/-- Claim C10: for a status that is neither 204 nor 304, `get_response()`
emits a header list containing a `content-length` entry whose value is the
decimal length of the returned encoded body (so `"0"` for a `None` or
empty body), and the returned data is exactly the encoded body; for
status 204 the emitted header list (of a response whose stored header
keys are lower-case, as the constructor guarantees) contains no
Content-Type and no Content-Length entry; for status 304 every header
named in the forbidden `bad_headers[304]` list is removed. -/
theorem C10_get_response_headers (r : Resp) :
    (r.status ≠ 204 → r.status ≠ 304 →
      ("content-length", toString (encodeBody r.body).length) ∈
          (getResponse r).2.2 ∧
        (getResponse r).1 = encodeBody r.body) ∧
    (r.status = 204 → (∀ kv ∈ r.headers, strLower kv.1 = kv.1) →
      ∀ kv ∈ (getResponse r).2.2,
        strLower kv.1 ≠ "content-type" ∧
          strLower kv.1 ≠ "content-length") ∧
    (r.status = 304 → (∀ kv ∈ r.headers, strLower kv.1 = kv.1) →
      ∀ kv ∈ (getResponse r).2.2, ∀ b ∈ badHeaders 304,
        strLower kv.1 ≠ b) := by
  refine ⟨fun h204 h304 => ?_, fun h204 hlow kv hkv => ?_,
    fun h304 hlow kv hkv => ?_⟩
  · constructor
    · show _ ∈ headerList _
      unfold headerList badHeaders
      rw [if_neg h204, if_neg h304]
      exact mem_assocSet_self _ _ _
    · rfl
  · have hkv2 : kv ∈ headerList
        ⟨r.body, r.status, assocSet r.headers "content-length"
          (toString (encodeBody r.body).length)⟩ := hkv
    unfold headerList at hkv2
    rw [show (Resp.mk r.body r.status (assocSet r.headers "content-length"
        (toString (encodeBody r.body).length))).status = r.status from rfl,
      h204] at hkv2
    obtain ⟨hmem, hbad⟩ := mem_foldl_filter _ _ _ hkv2
    have hlowkv : strLower kv.1 = kv.1 := by
      cases mem_assocSet_cases _ _ _ _ hmem with
      | inl hl => exact hlow kv hl
      | inr hr =>
          rw [hr]
          exact (by decide : strLower "content-length" = "content-length")
    rw [hlowkv]
    exact ⟨hbad "content-type" (by simp [badHeaders]),
      hbad "content-length" (by simp [badHeaders])⟩
  · have hkv2 : kv ∈ headerList
        ⟨r.body, r.status, assocSet r.headers "content-length"
          (toString (encodeBody r.body).length)⟩ := hkv
    unfold headerList at hkv2
    rw [show (Resp.mk r.body r.status (assocSet r.headers "content-length"
        (toString (encodeBody r.body).length))).status = r.status from rfl,
      h304] at hkv2
    obtain ⟨hmem, hbad⟩ := mem_foldl_filter _ _ _ hkv2
    have hlowkv : strLower kv.1 = kv.1 := by
      cases mem_assocSet_cases _ _ _ _ hmem with
      | inl hl => exact hlow kv hl
      | inr hr =>
          rw [hr]
          exact (by decide : strLower "content-length" = "content-length")
    intro b hb
    rw [hlowkv]
    exact hbad b hb

/-- Witness for C10: a 200 response with body `hello` carries
`content-length: 5` and returns the encoded body; in a finalized 204
response the surviving header `x-a` is neither Content-Type nor
Content-Length. -/
theorem C10_witness :
    (("content-length",
        toString (encodeBody (RBody.text "hello")).length) ∈
      (getResponse ⟨.text "hello", 200, []⟩).2.2 ∧
      (getResponse ⟨.text "hello", 200, []⟩).1 =
        encodeBody (RBody.text "hello")) ∧
    (strLower ("x-a", "1").1 ≠ "content-type" ∧
      strLower ("x-a", "1").1 ≠ "content-length") :=
  ⟨(C10_get_response_headers ⟨.text "hello", 200, []⟩).1 (by decide)
      (by decide),
    (C10_get_response_headers ⟨.none, 204, [("x-a", "1")]⟩).2.1 rfl
      (by decide) ("x-a", "1") (by decide)⟩

/-! ### Claim C9: unrecognized exceptions -/

/-- Claim C9: when the matched view's handler raises an unrecognized
exception, `process_request` (here with no middleware registered) yields
the generic 500 response: the body carries the stable code
`INTERNAL_SERVER_ERROR`; the formatted traceback is written to the
`wsgi.errors` sink regardless of the DEBUG flag; with DEBUG false the
body is exactly the generic code/message pair with no exception text,
and with DEBUG true it additionally carries the exception text and the
stack trace split into lines. -/
theorem C9_unrecognized_exception_500 (rts : List (String × List PView))
    (d : Bool) (m p : String) (v : PView)
    (ps : List (String × Option String)) (ex : ExcInfo)
    (hmatch : appMatch (PApp.mk rts [] d) p m = some (v, ps))
    (hbefore : v.beforeH ⟨m, p, ps⟩ = .nothing)
    (hhandler : v.handler ⟨m, p, ps⟩ = .raiseOther ex) :
    processRequest (PApp.mk rts [] d) ⟨m, p, []⟩ =
      (getResponse (mkJSONResponse (.json (unhandledBody d ex)) 500 []),
        [ex.tb]) ∧
    (unhandledBody d ex).code = "INTERNAL_SERVER_ERROR" ∧
    (d = false → unhandledBody d ex =
      ⟨"INTERNAL_SERVER_ERROR", "Something went wrong, try again later.",
        Option.none⟩) ∧
    (d = true → (unhandledBody d ex).details =
      some ⟨ex.text, splitLines ex.tb⟩) ∧
    (getResponse (mkJSONResponse (.json (unhandledBody d ex)) 500
        [])).2.1 = "500 Internal Server Error" := by
  have hview : viewPhase v ⟨m, p, ps⟩ = .error (.other ex) := by
    unfold viewPhase viewAttempt
    rw [hbefore, hhandler]
  have hinner : processInner (PApp.mk rts [] d) ⟨m, p, []⟩ =
      .error (.other ex) := by
    unfold processInner
    simp only [List.map_nil, runBeforeHooks]
    rw [hmatch]
    dsimp only
    rw [hview]
  refine ⟨?_, rfl, fun hd => by simp [unhandledBody, hd],
    fun hd => by simp [unhandledBody, hd], rfl⟩
  unfold processRequest
  rw [hinner]

/-- A concrete view whose handler raises an unrecognized exception
(default hooks: `before_handler` returns None, `on_exception`
re-raises). -/
def boomView : PView where
  rmatch := fun s => if s = "/boom" then some [] else Option.none
  beforeH := fun _ => .nothing
  handler := fun _ => .raiseOther ⟨"kaboom", "Traceback\nkaboom"⟩
  afterH := fun _ r => .done r
  onExc := fun _ e => .raiseApp e

/-- Witness for C9: the concrete exploding view produces the generic 500
triple, with the traceback written to the error sink. -/
theorem C9_witness :
    appMatch (PApp.mk [("GET", [boomView])] [] false) "/boom" "GET" =
      some (boomView, []) ∧
    boomView.beforeH ⟨"GET", "/boom", []⟩ = .nothing ∧
    boomView.handler ⟨"GET", "/boom", []⟩ =
      .raiseOther ⟨"kaboom", "Traceback\nkaboom"⟩ ∧
    processRequest (PApp.mk [("GET", [boomView])] [] false)
        ⟨"GET", "/boom", []⟩ =
      (getResponse (mkJSONResponse
          (.json (unhandledBody false ⟨"kaboom", "Traceback\nkaboom"⟩))
          500 []),
        ["Traceback\nkaboom"]) :=
  ⟨rfl, rfl, rfl,
    (C9_unrecognized_exception_500 [("GET", [boomView])] false "GET"
      "/boom" boomView [] ⟨"kaboom", "Traceback\nkaboom"⟩ rfl rfl rfl).1⟩

/-! ### Claim C8: handler and exception-handler contract faults -/

/-- Claim C8: (a) when the matched view's handler returns a non-`Response`
value, the internal `RestCraftException('Route handler must return a
Response object.')` is raised and — with the default re-raising
`on_exception` hook — surfaces as a 500 response carrying that message;
(b) when the handler raises a recognized application-level error and the
view's `on_exception` hook itself returns a non-`Response`, the
second-order `RestCraftException('Route exception must return Response
object.')` escapes and is mapped to a 500 response with that distinct
message.  (Both stated for a middleware-free app with DEBUG false.) -/
theorem C8_handler_contract_faults :
    (∀ (rts : List (String × List PView)) (m p : String) (v : PView)
      (ps : List (String × Option String)),
      appMatch (PApp.mk rts [] false) p m = some (v, ps) →
      v.beforeH ⟨m, p, ps⟩ = .nothing →
      v.handler ⟨m, p, ps⟩ = .nonResp →
      (∀ e, v.onExc ⟨m, p, ps⟩ e = .raiseApp e) →
      processRequest (PApp.mk rts [] false) ⟨m, p, []⟩ =
        (getResponse (mkJSONResponse
          (.json ⟨"INTERNAL_SERVER_ERROR",
            "Route handler must return a Response object.", Option.none⟩)
          500 []), [])) ∧
    (∀ (rts : List (String × List PView)) (m p : String) (v : PView)
      (ps : List (String × Option String)) (e0 : AppExc),
      appMatch (PApp.mk rts [] false) p m = some (v, ps) →
      v.beforeH ⟨m, p, ps⟩ = .nothing →
      v.handler ⟨m, p, ps⟩ = .raiseApp e0 →
      v.onExc ⟨m, p, ps⟩ e0 = .nonResp →
      processRequest (PApp.mk rts [] false) ⟨m, p, []⟩ =
        (getResponse (mkJSONResponse
          (.json ⟨"INTERNAL_SERVER_ERROR",
            "Route exception must return Response object.", Option.none⟩)
          500 []), [])) := by
  constructor
  · intro rts m p v ps hmatch hbefore hhandler hdefault
    have hview : viewPhase v ⟨m, p, ps⟩ =
        .error (.app handlerContractExc) := by
      unfold viewPhase viewAttempt
      rw [hbefore, hhandler]
      dsimp only
      rw [hdefault handlerContractExc]
    have hinner : processInner (PApp.mk rts [] false) ⟨m, p, []⟩ =
        .error (.app handlerContractExc) := by
      unfold processInner
      simp only [List.map_nil, runBeforeHooks]
      rw [hmatch]
      dsimp only
      rw [hview]
    unfold processRequest
    rw [hinner]
    rfl
  · intro rts m p v ps e0 hmatch hbefore hhandler hexc
    have hview : viewPhase v ⟨m, p, ps⟩ =
        .error (.app excHandlerContractExc) := by
      unfold viewPhase viewAttempt
      rw [hbefore, hhandler]
      dsimp only
      rw [hexc]
    have hinner : processInner (PApp.mk rts [] false) ⟨m, p, []⟩ =
        .error (.app excHandlerContractExc) := by
      unfold processInner
      simp only [List.map_nil, runBeforeHooks]
      rw [hmatch]
      dsimp only
      rw [hview]
    unfold processRequest
    rw [hinner]
    rfl

/-- View whose handler returns a non-Response value, with the default
re-raising `on_exception`. -/
def nonRespView : PView where
  rmatch := fun s => if s = "/bad" then some [] else Option.none
  beforeH := fun _ => .nothing
  handler := fun _ => .nonResp
  afterH := fun _ r => .done r
  onExc := fun _ e => .raiseApp e

/-- View whose handler raises an application error and whose
`on_exception` hook returns a non-Response value. -/
def badExcView : PView where
  rmatch := fun s => if s = "/bad" then some [] else Option.none
  beforeH := fun _ => .nothing
  handler := fun _ =>
    .raiseApp ⟨"boom", Option.none, 400, "HTTP_EXCEPTION", [], ""⟩
  afterH := fun _ r => .done r
  onExc := fun _ _ => .nonResp

/-- Witness for C8: both contract faults evaluated on concrete views. -/
theorem C8_witness :
    appMatch (PApp.mk [("GET", [nonRespView])] [] false) "/bad" "GET" =
      some (nonRespView, []) ∧
    processRequest (PApp.mk [("GET", [nonRespView])] [] false)
        ⟨"GET", "/bad", []⟩ =
      (getResponse (mkJSONResponse
        (.json ⟨"INTERNAL_SERVER_ERROR",
          "Route handler must return a Response object.", Option.none⟩)
        500 []), []) ∧
    processRequest (PApp.mk [("GET", [badExcView])] [] false)
        ⟨"GET", "/bad", []⟩ =
      (getResponse (mkJSONResponse
        (.json ⟨"INTERNAL_SERVER_ERROR",
          "Route exception must return Response object.", Option.none⟩)
        500 []), []) :=
  ⟨rfl,
    C8_handler_contract_faults.1 [("GET", [nonRespView])] "GET" "/bad"
      nonRespView [] rfl rfl rfl (fun _ => rfl),
    C8_handler_contract_faults.2 [("GET", [badExcView])] "GET" "/bad"
      badExcView [] ⟨"boom", Option.none, 400, "HTTP_EXCEPTION", [], ""⟩
      rfl rfl rfl rfl⟩

/-! ### Claim C2: HEAD fallback to the GET binding -/

lemma getResponse_contentLength_mem (r : Resp) (h204 : r.status ≠ 204)
    (h304 : r.status ≠ 304) :
    ("content-length", toString (encodeBody r.body).length) ∈
      (getResponse r).2.2 := by
  show _ ∈ headerList _
  unfold headerList badHeaders
  rw [if_neg h204, if_neg h304]
  exact mem_assocSet_self _ _ _

lemma processRequest_shape (app : PApp) (req : Request) :
    ∃ r : Resp, (processRequest app req).1 = getResponse r := by
  unfold processRequest
  cases processInner app req with
  | ok r => exact ⟨r, rfl⟩
  | error e =>
      cases e with
      | app e => exact ⟨_, rfl⟩
      | other e => exact ⟨_, rfl⟩

lemma wsgiOut_of_ne_head (app : PApp) (method p : String)
    (h : method ≠ "HEAD") :
    wsgiOut app method p = processRequest app ⟨method, p, []⟩ := by
  unfold wsgiOut
  dsimp only
  rw [if_neg h]

lemma wsgiOut_head_shape (app : PApp) (p : String) :
    wsgiOut app "HEAD" p =
      (("", (processRequest app ⟨"HEAD", p, []⟩).1.2.1,
          (processRequest app ⟨"HEAD", p, []⟩).1.2.2),
        (processRequest app ⟨"HEAD", p, []⟩).2) := by
  unfold wsgiOut
  dsimp only
  rw [if_pos rfl]

/-- Claim C2: for a route registered only for GET (no HEAD bucket) in a
middleware-free app, a HEAD request resolves through the GET bucket and
runs the full pipeline; when the view's hooks do not distinguish the two
request methods, the finalized HEAD response has an empty body while its
status line, headers and error-sink writes are identical to the GET
response's, and (when the status is neither 204 nor 304) the shared
headers include the content-length computed from the real GET-equivalent
body. -/
theorem C2_head_fallback (rts : List (String × List PView)) (d : Bool)
    (p : String) (v : PView) (ps : List (String × Option String))
    (hhead : (assocGet rts "HEAD").getD [] = ([] : List PView))
    (hmatch : firstViewMatch ((assocGet rts "GET").getD []) p =
      some (v, ps))
    (hb : v.beforeH ⟨"HEAD", p, ps⟩ = v.beforeH ⟨"GET", p, ps⟩)
    (hh : v.handler ⟨"HEAD", p, ps⟩ = v.handler ⟨"GET", p, ps⟩)
    (ha : ∀ r, v.afterH ⟨"HEAD", p, ps⟩ r = v.afterH ⟨"GET", p, ps⟩ r)
    (he : ∀ e, v.onExc ⟨"HEAD", p, ps⟩ e = v.onExc ⟨"GET", p, ps⟩ e) :
    wsgiOut (PApp.mk rts [] d) "HEAD" p =
      (("", (wsgiOut (PApp.mk rts [] d) "GET" p).1.2.1,
          (wsgiOut (PApp.mk rts [] d) "GET" p).1.2.2),
        (wsgiOut (PApp.mk rts [] d) "GET" p).2) ∧
    ((wsgiOut (PApp.mk rts [] d) "GET" p).1.2.1 ≠ "204 No Content" →
      (wsgiOut (PApp.mk rts [] d) "GET" p).1.2.1 ≠ "304 Not Modified" →
      ("content-length",
        toString (wsgiOut (PApp.mk rts [] d) "GET" p).1.1.length) ∈
        (wsgiOut (PApp.mk rts [] d) "HEAD" p).1.2.2) := by
  have hmHEAD : appMatch (PApp.mk rts [] d) p "HEAD" = some (v, ps) := by
    unfold appMatch
    rw [if_pos rfl]
    dsimp only [List.foldr]
    rw [hhead, hmatch]
    rfl
  have hmGET : appMatch (PApp.mk rts [] d) p "GET" = some (v, ps) := by
    unfold appMatch
    rw [if_neg (by decide)]
    dsimp only [List.foldr]
    rw [hmatch]
  have hview : viewPhase v ⟨"HEAD", p, ps⟩ = viewPhase v ⟨"GET", p, ps⟩ := by
    unfold viewPhase viewAttempt
    simp only [hb, hh, ha, he]
  have hinner : processInner (PApp.mk rts [] d) ⟨"HEAD", p, []⟩ =
      processInner (PApp.mk rts [] d) ⟨"GET", p, []⟩ := by
    unfold processInner
    simp only [List.map_nil, runBeforeHooks]
    rw [hmHEAD, hmGET]
    dsimp only
    rw [hview]
    simp only [runAfterMws]
  have hproc : processRequest (PApp.mk rts [] d) ⟨"HEAD", p, []⟩ =
      processRequest (PApp.mk rts [] d) ⟨"GET", p, []⟩ := by
    unfold processRequest
    rw [hinner]
  have hWG := wsgiOut_of_ne_head (PApp.mk rts [] d) "GET" p (by decide)
  have hWH := wsgiOut_head_shape (PApp.mk rts [] d) p
  constructor
  · rw [hWH, hproc, hWG]
  · intro h204 h304
    rw [hWG] at h204 h304 ⊢
    rw [hWH]
    dsimp only
    rw [hproc]
    obtain ⟨r, hr⟩ :=
      processRequest_shape (PApp.mk rts [] d) ⟨"GET", p, []⟩
    rw [hr] at h204 h304 ⊢
    have hdata : (getResponse r).1 = encodeBody r.body := rfl
    have hstat : (getResponse r).2.1 = statusLine r.status := rfl
    rw [hdata]
    rw [hstat] at h204 h304
    exact getResponse_contentLength_mem r
      (fun hs => h204 (by rw [hs]; decide))
      (fun hs => h304 (by rw [hs]; decide))

/-- A concrete GET-only view returning a 200 `pong` response. -/
def pingView : PView where
  rmatch := fun s => if s = "/ping" then some [] else Option.none
  beforeH := fun _ => .nothing
  handler := fun _ => .resp (mkResponse (.text "pong") 200 [])
  afterH := fun _ r => .done r
  onExc := fun _ e => .raiseApp e

/-- Witness for C2: `/ping` registered only for GET is reachable via
HEAD; the HEAD triple carries the empty body with the GET status and
headers, including `content-length` computed from the GET body. -/
theorem C2_witness :
    (assocGet [("GET", [pingView])] "HEAD").getD [] = ([] : List PView) ∧
    firstViewMatch ((assocGet [("GET", [pingView])] "GET").getD [])
      "/ping" = some (pingView, []) ∧
    wsgiOut (PApp.mk [("GET", [pingView])] [] false) "HEAD" "/ping" =
      (("",
          (wsgiOut (PApp.mk [("GET", [pingView])] [] false) "GET"
            "/ping").1.2.1,
          (wsgiOut (PApp.mk [("GET", [pingView])] [] false) "GET"
            "/ping").1.2.2),
        (wsgiOut (PApp.mk [("GET", [pingView])] [] false) "GET"
          "/ping").2) ∧
    ("content-length",
        toString (wsgiOut (PApp.mk [("GET", [pingView])] [] false) "GET"
          "/ping").1.1.length) ∈
      (wsgiOut (PApp.mk [("GET", [pingView])] [] false) "HEAD"
        "/ping").1.2.2 :=
  ⟨rfl, rfl,
    (C2_head_fallback [("GET", [pingView])] false "/ping" pingView []
      rfl rfl rfl rfl (fun _ => rfl) (fun _ => rfl)).1,
    (C2_head_fallback [("GET", [pingView])] false "/ping" pingView []
      rfl rfl rfl rfl (fun _ => rfl) (fun _ => rfl)).2 (by decide)
      (by decide)⟩

/-! ### Claim C7 (amended): trailing-slash handling

The compiled regex of a route is `^fragments/?$`.  For routes with no
empty segments, appending a single `/` to a path that does not already
end in one changes nothing: every fragment consumes text that cannot end
in `/` (static text is slash-free and non-empty; capture classes exclude
`/`), so only the `/?$` anchor can consume the appended slash. -/

lemma noSlashEnd_of_cons {a c : Char} {cs : List Char}
    (h : ¬ (c :: cs).getLast? = some a) :
    ¬ cs.getLast? = some a := by
  cases cs with
  | nil => simp
  | cons d ds => simpa [List.getLast?_cons_cons] using h

lemma dropPre_append_slash (pre : List Char)
    (hpre : ¬ pre.getLast? = some '/') (s : List Char) :
    dropPre pre (s ++ ['/']) = (dropPre pre s).map (fun r => r ++ ['/']) := by
  induction pre generalizing s with
  | nil => simp [dropPre]
  | cons c cs ih =>
      cases s with
      | nil =>
          by_cases hc : c = '/'
          · subst hc
            cases cs with
            | nil => exact absurd (by simp) hpre
            | cons d ds => simp [dropPre]
          · simp [dropPre, hc]
      | cons d ds =>
          by_cases hc : c = d
          · subst hc
            simp only [List.cons_append, dropPre, if_pos rfl]
            exact ih (noSlashEnd_of_cons hpre) ds
          · simp [dropPre, hc]

lemma dropPre_noSlashEnd {a : Char} (pre s r : List Char)
    (hs : ¬ s.getLast? = some a) (h : dropPre pre s = some r) :
    ¬ r.getLast? = some a := by
  induction pre generalizing s with
  | nil =>
      cases h
      exact hs
  | cons c cs ih =>
      cases s with
      | nil => cases h
      | cons d ds =>
          by_cases hc : c = d
          · rw [dropPre, if_pos hc] at h
            exact ih ds (noSlashEnd_of_cons hs) h
          · rw [dropPre, if_neg hc] at h
            cases h

lemma nonSlashSplit_append_slash (s : List Char) :
    nonSlashSplit (s ++ ['/']) =
      ((nonSlashSplit s).1, (nonSlashSplit s).2 ++ ['/']) := by
  induction s with
  | nil => simp [nonSlashSplit]
  | cons c cs ih =>
      by_cases hc : c = '/'
      · subst hc
        simp [nonSlashSplit]
      · simp only [List.cons_append, nonSlashSplit, if_neg hc,
          List.append_eq, ih]

lemma nonSlashSplit_snd_noSlashEnd {a : Char} (s : List Char)
    (hs : ¬ s.getLast? = some a) :
    ¬ (nonSlashSplit s).2.getLast? = some a := by
  induction s with
  | nil => simp [nonSlashSplit]
  | cons c cs ih =>
      by_cases hc : c = '/'
      · subst hc
        simpa [nonSlashSplit] using hs
      · simp only [nonSlashSplit, if_neg hc]
        exact ih (noSlashEnd_of_cons hs)

/-- A path tail is unproblematic for the `/?$` anchor when its last
character is neither `/` (the appended slash must be the only trailing
one) nor a newline (which Python `$` treats as transparent). -/
def TailOk (s : List Char) : Prop :=
  ¬ s.getLast? = some '/' ∧ ¬ s.getLast? = some '\n'

lemma tailOk_of_cons {c : Char} {cs : List Char} (h : TailOk (c :: cs)) :
    TailOk cs :=
  ⟨noSlashEnd_of_cons h.1, noSlashEnd_of_cons h.2⟩

lemma dropPre_tailOk (pre s r : List Char) (hs : TailOk s)
    (h : dropPre pre s = some r) : TailOk r :=
  ⟨dropPre_noSlashEnd pre s r hs.1 h, dropPre_noSlashEnd pre s r hs.2 h⟩

lemma nonSlashSplit_snd_tailOk (s : List Char) (hs : TailOk s) :
    TailOk (nonSlashSplit s).2 :=
  ⟨nonSlashSplit_snd_noSlashEnd s hs.1, nonSlashSplit_snd_noSlashEnd s hs.2⟩

/-- A capture fragment is well-behaved when its character class excludes
`/` and it cannot match the empty segment — true of every built-in
`ParamType` pattern. -/
def TyGood (ty : ParamType) : Prop :=
  (∀ s, ty.full s = true → '/' ∉ s) ∧ ty.full [] = false

/-- Goodness of a compiled fragment: static text non-empty and
slash-free, parameter fragments over well-behaved classes. -/
def PieceGood : Piece → Prop
  | .staticSeg t => t ≠ "" ∧ '/' ∉ t.data
  | .reqParam ty => TyGood ty
  | .optParam ty => TyGood ty

lemma tyGood_StringType : TyGood StringType := by
  constructor
  · intro s hs hmem
    simp only [StringType, Bool.and_eq_true, List.all_eq_true] at hs
    have := hs.2 '/' hmem
    simp at this
  · rfl

lemma tyGood_IntType : TyGood IntType := by
  constructor
  · intro s hs hmem
    simp only [IntType, Bool.and_eq_true, List.all_eq_true] at hs
    have := hs.2 '/' hmem
    simp [Char.isDigit] at this
  · rfl

lemma tyGood_FloatType : TyGood FloatType := by
  constructor
  · intro s hs hmem
    simp only [FloatType] at hs
    rcases hdw : s.dropWhile Char.isDigit with _ | ⟨c, bs⟩
    · rw [hdw] at hs; cases hs
    · rw [hdw] at hs
      dsimp only at hs
      by_cases hdot : c = '.'
      · subst hdot
        rw [if_pos rfl] at hs
        simp only [Bool.and_eq_true, List.all_eq_true] at hs
        have hsplit : s = s.takeWhile Char.isDigit ++ ('.' :: bs) := by
          rw [← hdw, List.takeWhile_append_dropWhile]
        rw [hsplit] at hmem
        rcases List.mem_append.mp hmem with hm | hm
        · have := List.mem_takeWhile_imp hm
          simp [Char.isDigit] at this
        · rcases List.mem_cons.mp hm with hm2 | hm2
          · cases hm2
          · have := hs.2 '/' hm2
            simp [Char.isDigit] at this
      · rw [if_neg hdot] at hs
        cases hs
  · rfl

lemma tyGood_SlugType : TyGood SlugType := by
  constructor
  · intro s hs hmem
    simp only [SlugType, Bool.and_eq_true, List.all_eq_true] at hs
    have := hs.2 '/' hmem
    simp [isSlugChar, Char.isDigit] at this
  · rfl

lemma tyGood_UUIDType : TyGood UUIDType := by
  constructor
  · intro s hs hmem
    simp only [UUIDType, Bool.and_eq_true, List.all_eq_true] at hs
    have := hs.2 '/' hmem
    simp [isHexChar, Char.isDigit] at this
  · rfl

lemma tyGood_lookupType (key : String) : TyGood (lookupType key) := by
  unfold lookupType typeMap
  set k := if key = "" then "default" else key
  by_cases h1 : "default" = k
  · simp [assocGet, h1, tyGood_StringType]
  · by_cases h2 : "int" = k
    · simp [assocGet, h1, h2, tyGood_IntType]
    · by_cases h3 : "float" = k
      · simp [assocGet, h1, h2, h3, tyGood_FloatType]
      · by_cases h4 : "str" = k
        · simp [assocGet, h1, h2, h3, h4, tyGood_StringType]
        · by_cases h5 : "slug" = k
          · simp [assocGet, h1, h2, h3, h4, h5, tyGood_SlugType]
          · by_cases h6 : "uuid" = k
            · simp [assocGet, h1, h2, h3, h4, h5, h6, tyGood_UUIDType]
            · simp [assocGet, h1, h2, h3, h4, h5, h6, tyGood_StringType]

lemma matchPieces_slash_of_nil (L : List Piece)
    (hgood : ∀ pc ∈ L, PieceGood pc) :
    ∀ caps, matchPieces L [] caps = Option.none →
      matchPieces L ['/'] caps = Option.none := by
  induction L with
  | nil => intro caps h; simp [matchPieces] at h
  | cons pc ps ih =>
      have hps : ∀ x ∈ ps, PieceGood x :=
        fun x hx => hgood x (List.mem_cons_of_mem _ hx)
      intro caps h
      cases pc with
      | staticSeg t =>
          obtain ⟨ht, _⟩ := hgood _ (List.mem_cons_self _ _)
          obtain ⟨l⟩ := t
          cases l with
          | nil => exact absurd rfl ht
          | cons d ds => simp [matchPieces, dropPre]
      | reqParam ty =>
          have hty := hgood _ (List.mem_cons_self _ _)
          simp [matchPieces, nonSlashSplit, hty.2]
      | optParam ty =>
          have hty := hgood _ (List.mem_cons_self _ _)
          unfold matchPieces at h
          dsimp only at h
          rw [Option.none_orElse] at h
          unfold matchPieces
          dsimp only
          rw [if_pos rfl]
          have hf : (nonSlashSplit ([] : List Char)).1 = [] := rfl
          rw [hf, hty.2]
          simp only [Bool.false_eq_true, if_false, Option.none_orElse]
          rw [h, Option.none_orElse]
          exact ih hps _ h

lemma mem_of_getLast?_eq {l : List Char} {a : Char}
    (h : l.getLast? = some a) : a ∈ l := by
  obtain ⟨hne, heq⟩ :=
    List.mem_getLast?_eq_getLast (show a ∈ l.getLast? from h)
  rw [heq]
  exact List.getLast_mem hne

lemma matchPieces_anchor (rest : List Char) (caps : Caps) :
    matchPieces [] rest caps =
      if rest = [] ∨ rest = ['\n'] ∨ rest = ['/'] ∨ rest = ['/', '\n']
      then some caps
      else Option.none := rfl

lemma matchPieces_req_cons (ty : ParamType) (ps : List Piece) (c : Char)
    (rest : List Char) (caps : Caps) :
    matchPieces (.reqParam ty :: ps) (c :: rest) caps =
      if c = '/' then
        if ty.full (nonSlashSplit rest).1 = true then
          matchPieces ps (nonSlashSplit rest).2
            (caps ++ [some (String.mk (nonSlashSplit rest).1)])
        else Option.none
      else Option.none := rfl

lemma matchPieces_req_nil (ty : ParamType) (ps : List Piece)
    (caps : Caps) :
    matchPieces (.reqParam ty :: ps) [] caps = Option.none := rfl

lemma matchPieces_opt_cons (ty : ParamType) (ps : List Piece) (c : Char)
    (rest : List Char) (caps : Caps) :
    matchPieces (.optParam ty :: ps) (c :: rest) caps =
      ((if c = '/' then
        (if ty.full (nonSlashSplit rest).1 = true then
          matchPieces ps (nonSlashSplit rest).2
            (caps ++ [some (String.mk (nonSlashSplit rest).1)])
         else Option.none) <|>
          matchPieces ps rest (caps ++ [Option.none])
       else Option.none) <|>
        matchPieces ps (c :: rest) (caps ++ [Option.none])) := rfl

lemma matchPieces_opt_nil (ty : ParamType) (ps : List Piece)
    (caps : Caps) :
    matchPieces (.optParam ty :: ps) [] caps =
      (Option.none <|> matchPieces ps [] (caps ++ [Option.none])) := rfl

lemma matchPieces_static_eq (t : String) (ps : List Piece)
    (input : List Char) (caps : Caps) :
    matchPieces (.staticSeg t :: ps) input caps =
      match dropPre ('/' :: t.data) input with
      | some rest => matchPieces ps rest caps
      | Option.none => Option.none := rfl

lemma matchPieces_append_slash (L : List Piece)
    (hgood : ∀ pc ∈ L, PieceGood pc) :
    ∀ (s : List Char) (caps), TailOk s →
      matchPieces L (s ++ ['/']) caps = matchPieces L s caps := by
  induction L with
  | nil =>
      intro s caps hs
      cases s with
      | nil => rfl
      | cons c cs =>
          have hL : ((c :: cs) ++ ['/']).getLast? = some '/' :=
            List.getLast?_concat _
          have hc1 : ¬((c :: cs) ++ ['/'] = [] ∨
              (c :: cs) ++ ['/'] = ['\n'] ∨ (c :: cs) ++ ['/'] = ['/'] ∨
              (c :: cs) ++ ['/'] = ['/', '\n']) := by
            rintro (h | h | h | h)
            · simp at h
            · rw [h] at hL
              exact absurd hL (by decide)
            · have := congrArg List.length h
              simp at this
            · rw [h] at hL
              exact absurd hL (by decide)
          have hc2 : ¬(c :: cs = [] ∨ c :: cs = ['\n'] ∨
              c :: cs = ['/'] ∨ c :: cs = ['/', '\n']) := by
            rintro (h | h | h | h)
            · simp at h
            · exact hs.2 (by rw [h]; rfl)
            · exact hs.1 (by rw [h]; rfl)
            · exact hs.2 (by rw [h]; rfl)
          rw [matchPieces_anchor, matchPieces_anchor, if_neg hc1,
            if_neg hc2]
  | cons pc ps ih =>
      have hps : ∀ x ∈ ps, PieceGood x :=
        fun x hx => hgood x (List.mem_cons_of_mem _ hx)
      intro s caps hs
      cases pc with
      | staticSeg t =>
          obtain ⟨ht, htns⟩ := hgood _ (List.mem_cons_self _ _)
          obtain ⟨l⟩ := t
          have hl : l ≠ [] := fun h => ht (by rw [h])
          have hpre : ¬ ('/' :: l).getLast? = some '/' := by
            cases l with
            | nil => exact absurd rfl hl
            | cons d ds =>
                rw [List.getLast?_cons_cons]
                intro hlast
                exact htns (mem_of_getLast?_eq hlast)
          rw [matchPieces_static_eq, matchPieces_static_eq,
            show (String.mk l).data = l from rfl,
            dropPre_append_slash ('/' :: l) hpre s]
          cases hdp : dropPre ('/' :: l) s with
          | none => rfl
          | some r =>
              dsimp only [Option.map]
              exact ih hps r caps (dropPre_tailOk _ _ _ hs hdp)
      | reqParam ty =>
          have hty := hgood _ (List.mem_cons_self _ _)
          cases s with
          | nil =>
              rw [List.nil_append, matchPieces_req_cons,
                matchPieces_req_nil, if_pos rfl,
                show (nonSlashSplit ([] : List Char)).1 = [] from rfl,
                hty.2]
              simp
          | cons c cs =>
              rw [List.cons_append, matchPieces_req_cons,
                matchPieces_req_cons]
              by_cases hc : c = '/'
              · subst hc
                have hcs : TailOk cs := tailOk_of_cons hs
                rw [if_pos rfl, if_pos rfl, nonSlashSplit_append_slash cs]
                dsimp only
                by_cases hfull : ty.full (nonSlashSplit cs).1 = true
                · rw [if_pos hfull, if_pos hfull]
                  exact ih hps _ _ (nonSlashSplit_snd_tailOk cs hcs)
                · rw [if_neg hfull, if_neg hfull]
              · rw [if_neg hc, if_neg hc]
      | optParam ty =>
          have hty := hgood _ (List.mem_cons_self _ _)
          cases s with
          | nil =>
              rw [List.nil_append, matchPieces_opt_cons,
                matchPieces_opt_nil, if_pos rfl,
                show (nonSlashSplit ([] : List Char)).1 = [] from rfl,
                hty.2]
              simp only [Bool.false_eq_true, if_false, Option.none_orElse]
              cases hA : matchPieces ps [] (caps ++ [Option.none]) with
              | some x => rfl
              | none => exact matchPieces_slash_of_nil ps hps _ hA
          | cons c cs =>
              rw [List.cons_append, matchPieces_opt_cons,
                matchPieces_opt_cons]
              by_cases hc : c = '/'
              · subst hc
                have hcs : TailOk cs := tailOk_of_cons hs
                have ihOuter : matchPieces ps ('/' :: (cs ++ ['/']))
                    (caps ++ [Option.none]) =
                    matchPieces ps ('/' :: cs) (caps ++ [Option.none]) := by
                  rw [← List.cons_append]
                  exact ih hps _ _ hs
                rw [if_pos rfl, if_pos rfl, nonSlashSplit_append_slash cs]
                dsimp only
                rw [ihOuter, ih hps cs _ hcs]
                by_cases hfull : ty.full (nonSlashSplit cs).1 = true
                · rw [if_pos hfull, if_pos hfull,
                    ih hps _ _ (nonSlashSplit_snd_tailOk cs hcs)]
                · rw [if_neg hfull, if_neg hfull]
              · have ihOuter : matchPieces ps (c :: (cs ++ ['/']))
                    (caps ++ [Option.none]) =
                    matchPieces ps (c :: cs) (caps ++ [Option.none]) := by
                  rw [← List.cons_append]
                  exact ih hps _ _ hs
                rw [if_neg hc, if_neg hc, ihOuter]

/-- Goodness of a parsed segment: static text non-empty and slash-free
(parameter segments are always fine — their classes are the built-in
ones). -/
def SegGood : Segment → Prop
  | .static t => t ≠ "" ∧ '/' ∉ t.data
  | .param _ _ _ => True

lemma pieceGood_compile (sg : Segment) (h : SegGood sg) :
    PieceGood (compileSegment sg).1 := by
  cases sg with
  | static t => exact h
  | param n k opt =>
      cases opt with
      | true => exact tyGood_lookupType k
      | false => exact tyGood_lookupType k

lemma segGood_of_validate (segs : List Segment)
    (hval : validateSegs segs = .ok ())
    (hne : ∀ sg ∈ segs, sg ≠ .static "") : ∀ sg ∈ segs, SegGood sg := by
  have hall : segs.all
      (fun s =>
        match s with
        | .static t => validStatic t
        | .param n tyKey _ =>
            (tyKey = "" || (assocGet typeMap tyKey).isSome) &&
              validName n) = true := by
    by_cases h : segs.all
        (fun s =>
          match s with
          | .static t => validStatic t
          | .param n tyKey _ =>
              (tyKey = "" || (assocGet typeMap tyKey).isSome) &&
                validName n) = true
    · exact h
    · unfold validateSegs at hval
      rw [if_neg h] at hval
      cases hval
  intro sg hsg
  have hp := List.all_eq_true.mp hall sg hsg
  cases sg with
  | static t =>
      refine ⟨fun ht => hne _ hsg (by rw [ht]), fun hmem => ?_⟩
      have := List.all_eq_true.mp hp '/' hmem
      simp [isWordChar, Char.isAlphanum, Char.isAlpha, Char.isUpper,
        Char.isLower, Char.isDigit] at this
  | param n k opt => trivial

lemma rootOnly_eq_false (segs : List Segment) (hne : segs ≠ [])
    (hgood : ∀ sg ∈ segs, SegGood sg) : rootOnly segs = false := by
  cases segs with
  | nil => exact absurd rfl hne
  | cons sg rest =>
      unfold rootOnly
      rw [List.all_cons]
      cases sg with
      | static t =>
          have ht := (hgood _ (List.mem_cons_self _ _)).1
          simp [ht]
      | param n k opt => simp

lemma data_append_slash (p : String) :
    (p ++ "/").data = p.data ++ ['/'] := by
  obtain ⟨l⟩ := p
  rfl

lemma splitChar_ne_nil (sep : Char) (l : List Char) :
    splitChar sep l ≠ [] := by
  cases l with
  | nil => simp [splitChar]
  | cons c cs =>
      unfold splitChar
      by_cases hc : c = sep
      · simp [hc]
      · simp [hc]

lemma splitChar_append_sep (sep : Char) (l : List Char) :
    splitChar sep (l ++ [sep]) = splitChar sep l ++ [[]] := by
  induction l with
  | nil => simp [splitChar]
  | cons c cs ih =>
      unfold splitChar
      rw [List.cons_append]
      dsimp only
      rw [ih]
      by_cases hc : c = sep
      · rw [if_pos hc, if_pos hc]
        rfl
      · rw [if_neg hc, if_neg hc]
        cases hr : splitChar sep cs with
        | nil => exact absurd hr (splitChar_ne_nil sep cs)
        | cons x xs => simp

lemma splitPath_append_slash (p : String) :
    splitPath (p ++ "/") = splitPath p := by
  unfold splitPath
  rw [data_append_slash, splitChar_append_sep, List.map_append,
    List.filter_append]
  simp

lemma trieDispatch_append_slash (root : TNode) (m p : String) :
    trieDispatch root m (p ++ "/") = trieDispatch root m p := by
  unfold trieDispatch findNode
  rw [splitPath_append_slash]

/-- Claim C7 (amended): for regex routes whose patterns contain no empty
segments and request paths that end neither in a slash nor in a newline
(Python's `$` is transparent to one final newline), a single trailing
slash on the request path is optional — the path with and without the
trailing slash produce the same match result with the same parameters;
in the trie router a trailing slash is irrelevant for every route and
path, because the splitter drops empty segments (and, by the same
token, duplicate mid-path slashes collapse there, so mid-path slashes
are not universally significant — as the counterexample records, the
same holds for regex routes with optional parameters or empty segments,
and a newline-ending path breaks trailing-slash optionality even for
plain static routes). -/
theorem C7_amended_trailing_slash :
    (∀ (segs : List Segment) (p : String), segs ≠ [] →
      validateSegs segs = .ok () →
      (∀ sg ∈ segs, sg ≠ .static "") →
      ¬ p.data.getLast? = some '/' →
      ¬ p.data.getLast? = some '\n' →
      routeMatch segs (p ++ "/") = routeMatch segs p) ∧
    (∀ (root : TNode) (m p : String),
      trieDispatch root m (p ++ "/") = trieDispatch root m p) := by
  constructor
  · intro segs p hne hval hnemp hp hpn
    have hgood := segGood_of_validate segs hval hnemp
    have hro := rootOnly_eq_false segs hne hgood
    have hpieces : ∀ pc ∈ routePieces segs, PieceGood pc := by
      intro pc hpc
      obtain ⟨sg, hsg, rfl⟩ := List.mem_map.mp hpc
      exact pieceGood_compile sg (hgood sg hsg)
    unfold routeMatch
    rw [hro]
    simp only [Bool.false_eq_true, if_false]
    rw [data_append_slash,
      matchPieces_append_slash (routePieces segs) hpieces p.data []
        ⟨hp, hpn⟩]
  · exact trieDispatch_append_slash

/-- Witness for C7 (amended): the static route `/ping` matches `/ping/`
and `/ping` identically, and the trie route `/a/b` dispatches `/a/b/`
and `/a/b` identically. -/
theorem C7_amended_witness :
    validateSegs [Segment.static "ping"] = .ok () ∧
    ¬ ("/ping" : String).data.getLast? = some '/' ∧
    ¬ ("/ping" : String).data.getLast? = some '\n' ∧
    routeMatch [Segment.static "ping"] ("/ping" ++ "/") =
      routeMatch [Segment.static "ping"] "/ping" ∧
    trieDispatch trieSlashAB "GET" ("/a/b" ++ "/") =
      trieDispatch trieSlashAB "GET" "/a/b" :=
  ⟨by decide, by decide, by decide,
    C7_amended_trailing_slash.1 [Segment.static "ping"] "/ping"
      (by decide) (by decide) (by decide) (by decide) (by decide),
    C7_amended_trailing_slash.2 trieSlashAB "GET" "/a/b"⟩
